import Mathlib

/-!
Verification development for the `glwbr/brew` HTTP client package
(`internal/client` plus `pkg/logger`).

The Go sources are shallowly embedded: pure helpers become Lean functions,
the transport chain becomes an inductive chain type with an executable
interpreter, and the raw network transport is a parameter
`Request → Except String Response` (a transport-level failure is the
`Except.error` case).  Strings are processed over `List Char`; Go byte-level
operations coincide with this model on the ASCII inputs the client handles
(non-ASCII percent-encoding would differ per byte and is noted where
relevant).  Wall-clock data (timings, backoff sleeps) and I/O stream
mechanics (body re-buffering) are elided; the observable values the code
derives from them are kept.

URLs are modelled after Go `net/url` (the environment library the client
calls): `path` holds the escaped form (Go `EscapedPath`), user info,
fragments and `OmitHost` are not modelled, and host strings are kept
unvalidated; none of the claims depend on those parts.
-/

namespace Brisa

/-! ### Character and list-of-characters helpers (Go `strings` operations) -/

/-- Hexadecimal digit test, Go `ishex`. -/
def isHexChar (c : Char) : Bool :=
  c.isDigit ∨ (Char.ofNat 97 ≤ c ∧ c ≤ Char.ofNat 102) ∨ (Char.ofNat 65 ≤ c ∧ c ≤ Char.ofNat 70)

/-- Hexadecimal digit value, Go `unhex`. -/
def hexVal (c : Char) : Nat :=
  if c.isDigit then c.toNat - 48
  else if Char.ofNat 97 ≤ c ∧ c ≤ Char.ofNat 102 then c.toNat - 87
  else if Char.ofNat 65 ≤ c ∧ c ≤ Char.ofNat 70 then c.toNat - 55
  else 0

/-- Uppercase hexadecimal digit for a value below 16, Go `upperhex` table. -/
def hexDigitUpper (n : Nat) : Char :=
  if n < 10 then Char.ofNat (48 + n) else Char.ofNat (65 + n - 10)

/-- Go `strings.Cut(s, sep)` for a one-character separator: splits at the
first occurrence, separator removed; `none` when absent. -/
def cutChar (sep : Char) : List Char → Option (List Char × List Char)
  | [] => none
  | c :: rest =>
    if c = sep then some ([], rest)
    else match cutChar sep rest with
      | none => none
      | some (a, b) => some (c :: a, b)

/-- Splits a character list on every occurrence of `sep`
(Go `strings.Split` / the repeated-`Cut` loop). -/
def splitOnChar (sep : Char) : List Char → List (List Char)
  | [] => [[]]
  | c :: rest =>
    match splitOnChar sep rest with
    | [] => [[]]
    | h :: t => if c = sep then [] :: h :: t else (c :: h) :: t

/-- Keeps everything up to and including the last `/` (Go
`base[:strings.LastIndex(base, "/")+1]`; empty when there is no slash). -/
def keepThroughLastSlash (l : List Char) : List Char :=
  ((l.reverse).dropWhile (fun c => c ≠ '/')).reverse

/-- Drops the last slash-separated component together with the slash
(Go `str[:strings.LastIndexByte(str, '/')]`); `none` when there is no slash. -/
def trimLastComponent (l : List Char) : Option (List Char) :=
  if l.contains '/' then
    some ((((l.reverse).dropWhile (fun c => c ≠ '/')).drop 1).reverse)
  else none

/-- Go `strings.TrimRight(s, "/")`. -/
def trimTrailingSlashes (s : String) : String :=
  ⟨((s.data.reverse).dropWhile (fun c => c = '/')).reverse⟩

/-- ASCII lowercase of a character list (Go `strings.ToLower` on ASCII). -/
def lowerChars (l : List Char) : List Char := l.map Char.toLower

/-- Control-character test used by `net/url.Parse`
(`stringContainsCTLByte`). -/
def containsCTL (l : List Char) : Bool :=
  l.any (fun c => c.toNat < 32 ∨ c.toNat = 127)

/-- Percent-escape well-formedness of a path: every `%` is followed by two
hexadecimal digits.  This is exactly the failure condition of Go
`unescape(path, encodePath)` inside `URL.setPath`. -/
def validEscapes : List Char → Bool
  | [] => true
  | '%' :: a :: b :: rest => isHexChar a ∧ isHexChar b ∧ validEscapes rest
  | '%' :: _ => false
  | _ :: rest => validEscapes rest

/-! ### URL data model (Go `net/url.URL`, modelled fields only) -/

/-- Model of Go `url.URL`.  `path` stores the escaped path
(`EscapedPath()`), `opq` models the Go `Opaque` field; user info, fragment
and `OmitHost` are not modelled. -/
structure URL where
  scheme : String
  opq : String
  host : String
  path : String
  rawQuery : String
  forceQuery : Bool
  deriving Repr, DecidableEq

/-- Go `url.URL.IsAbs`: a URL is absolute when it has a scheme. -/
def URL.isAbs (u : URL) : Bool := u.scheme ≠ ""

/-! ### Go `net/url.Parse` (modelled subset) -/

/-- Scheme scanner, Go `net/url.getScheme`.  Returns the scheme (empty when
none) and the remainder; errors on a leading colon. -/
def getSchemeAux (acc : List Char) : List Char → Except String (List Char × List Char)
  | [] => .ok ([], acc)
  | c :: rest =>
    if c.isAlpha then getSchemeAux (acc ++ [c]) rest
    else if c.isDigit ∨ c = '+' ∨ c = '-' ∨ c = '.' then
      if acc = [] then .ok ([], c :: rest) else getSchemeAux (acc ++ [c]) rest
    else if c = ':' then
      if acc = [] then .error "missing protocol scheme"
      else .ok (acc, rest)
    else .ok ([], acc ++ c :: rest)

/-- Go `net/url.getScheme`. -/
def getScheme (l : List Char) : Except String (List Char × List Char) :=
  getSchemeAux [] l

/-- Host part of an authority: the substring after the last `@`
(Go `parseAuthority`; user info is dropped, host validation elided). -/
def hostOfAuthority (auth : List Char) : List Char :=
  if auth.contains '@' then
    ((auth.reverse).takeWhile (fun c => c ≠ '@')).reverse
  else auth

/-- First path segment of a relative reference contains a colon
(Go check `strings.Contains(segment, ":")` on `strings.Cut(rest, "/")`). -/
def firstSegmentHasColon (rest : List Char) : Bool :=
  (match cutChar '/' rest with
   | some (seg, _) => seg
   | none => rest).contains ':'

/-- Model of Go `net/url.Parse` (with `viaRequest = false`) on the parts the
client exercises: control-character rejection, scheme splitting, the
force-query trailing `?`, opaque URLs, authority extraction, the
colon-in-first-segment check, and path escape validation.  The path is kept
in escaped form. -/
def parseURL (rawURL : String) : Except String URL :=
  let raw := rawURL.data
  if containsCTL raw then .error "invalid control character in URL"
  else match getScheme raw with
  | .error e => .error e
  | .ok (schemeCs, afterScheme) =>
    let scheme := lowerChars schemeCs
    let (rest, rawQuery, forceQuery) :=
      if afterScheme.getLast? = some '?' ∧
          ¬ (afterScheme.dropLast).contains '?' then
        (afterScheme.dropLast, [], true)
      else match cutChar '?' afterScheme with
        | some (a, b) => (a, b, false)
        | none => (afterScheme, [], false)
    if rest.head? ≠ some '/' then
      if scheme ≠ [] then
        -- opaque URL: everything after the scheme colon, as-is
        .ok ⟨⟨scheme⟩, ⟨rest⟩, "", "", ⟨rawQuery⟩, forceQuery⟩
      else if firstSegmentHasColon rest then
        .error "first path segment in URL cannot contain colon"
      else if ¬ validEscapes rest then .error "invalid URL escape"
      else .ok ⟨⟨scheme⟩, "", "", ⟨rest⟩, ⟨rawQuery⟩, forceQuery⟩
    else
      let hasAuthority :=
        rest.take 2 = ['/', '/'] ∧ (scheme ≠ [] ∨ rest.take 3 ≠ ['/', '/', '/'])
      let (host, pathCs) :=
        if hasAuthority then
          let auth := rest.drop 2
          match cutChar '/' auth with
          | some (a, b) => (hostOfAuthority a, '/' :: b)
          | none => (hostOfAuthority auth, [])
        else ([], rest)
      if ¬ validEscapes pathCs then .error "invalid URL escape"
      else .ok ⟨⟨scheme⟩, "", ⟨host⟩, ⟨pathCs⟩, ⟨rawQuery⟩, forceQuery⟩

/-! ### Go `net/url.resolvePath` and `URL.ResolveReference` -/

/-- Segment loop of Go `resolvePath`.  `d` tracks the builder contents after
its fixed leading slash (Go `dst.String()[1:]`), `first` the Go `first`
flag; returns the final `d` together with the last processed element. -/
def resolveSegments : List (List Char) → List Char → Bool → List Char →
    List Char × List Char
  | [], d, _, lastE => (d, lastE)
  | e :: rest, d, first, _ =>
    if e = ['.'] then resolveSegments rest d false e
    else if e = ['.', '.'] then
      match trimLastComponent d with
      | none => resolveSegments rest [] true e
      | some d2 => resolveSegments rest d2 first e
    else resolveSegments rest (if first then d ++ e else d ++ '/' :: e) false e

/-- Go `net/url.resolvePath(base, ref)`: merge per RFC 3986 §5.3 (an
absolute-path reference replaces the base path entirely), then remove dot
segments. -/
def resolvePathChars (base ref : List Char) : List Char :=
  let full :=
    if ref = [] then base
    else if ref.head? ≠ some '/' then keepThroughLastSlash base ++ ref
    else ref
  if full = [] then []
  else
    let (d, lastE) := resolveSegments (splitOnChar '/' full) [] true []
    let d := if lastE = ['.'] ∨ lastE = ['.', '.'] then d ++ ['/'] else d
    if d.head? = some '/' then d else '/' :: d

/-- Go `url.URL.ResolveReference` on the modelled fields (user info and
fragments elided). -/
def resolveReference (u ref : URL) : URL :=
  let scheme := if ref.scheme = "" then u.scheme else ref.scheme
  if ref.scheme ≠ "" ∨ ref.host ≠ "" then
    -- the "absoluteURI" / "net_path" cases
    { scheme := scheme, opq := ref.opq, host := ref.host,
      path := ⟨resolvePathChars ref.path.data []⟩,
      rawQuery := ref.rawQuery, forceQuery := ref.forceQuery }
  else if ref.opq ≠ "" then
    { scheme := scheme, opq := ref.opq, host := "", path := "",
      rawQuery := ref.rawQuery, forceQuery := ref.forceQuery }
  else
    let rawQuery :=
      if ref.path = "" ∧ ¬ ref.forceQuery ∧ ref.rawQuery = "" then u.rawQuery
      else ref.rawQuery
    if ref.path = "" ∧ u.opq ≠ "" then
      { scheme := scheme, opq := u.opq, host := "", path := "",
        rawQuery := rawQuery, forceQuery := ref.forceQuery }
    else
      -- the "abs_path" / "rel_path" cases
      { scheme := scheme, opq := ref.opq, host := u.host,
        path := ⟨resolvePathChars u.path.data ref.path.data⟩,
        rawQuery := rawQuery, forceQuery := ref.forceQuery }

/-! ### Go `net/url.Values` (query parameters) -/

/-- Go `url.Values`: a map from key to the ordered list of values, modelled
as an association list with unique keys.  Go map iteration order is
arbitrary; every use below either fixes an order or is order-independent
because `encode` sorts the keys. -/
abbrev Values := List (String × List String)

/-- Go `Values.Add`: appends a value to the key's list, creating the key if
absent. -/
def valuesAdd (vs : Values) (k v : String) : Values :=
  match vs with
  | [] => [(k, [v])]
  | (k2, l) :: rest =>
    if k2 = k then (k2, l ++ [v]) :: rest else (k2, l) :: valuesAdd rest k v

/-- Unescaping of one query component, Go `unescape(s, encodeQueryComponent)`:
`+` becomes a space, `%XX` decodes, a malformed escape is an error. -/
def unescapeQueryChars : List Char → Option (List Char)
  | [] => some []
  | '%' :: a :: b :: rest =>
    if isHexChar a ∧ isHexChar b then
      (unescapeQueryChars rest).map (fun r => Char.ofNat (16 * hexVal a + hexVal b) :: r)
    else none
  | '%' :: _ => none
  | '+' :: rest => (unescapeQueryChars rest).map (fun r => ' ' :: r)
  | c :: rest => (unescapeQueryChars rest).map (fun r => c :: r)

/-- One `key=value` piece of Go `parseQuery`: pieces with a `;`, empty
pieces, and pieces whose unescaping fails are dropped. -/
def parseQueryPiece (vs : Values) (piece : List Char) : Values :=
  if piece.contains ';' then vs
  else if piece = [] then vs
  else
    let (key, value) :=
      match cutChar '=' piece with
      | some (k, v) => (k, v)
      | none => (piece, [])
    match unescapeQueryChars key, unescapeQueryChars value with
    | some k, some v => valuesAdd vs ⟨k⟩ ⟨v⟩
    | _, _ => vs

/-- Go `url.ParseQuery` as used by `URL.Query()` (errors are discarded,
well-formed pairs are kept). -/
def parseQuery (rawQuery : String) : Values :=
  ((splitOnChar '&' rawQuery.data).foldl parseQueryPiece [])

/-- Characters Go leaves unescaped in a query component
(`shouldEscape(c, encodeQueryComponent)` is false). -/
def isUnreservedQueryChar (c : Char) : Bool :=
  c.isAlphanum ∨ c = '-' ∨ c = '_' ∨ c = '.' ∨ c = '~'

/-- Go `url.QueryEscape` for one character (ASCII; a non-ASCII character
would be escaped per UTF-8 byte by Go, which no client input here uses). -/
def queryEscapeChar (c : Char) : List Char :=
  if c = ' ' then ['+']
  else if isUnreservedQueryChar c then [c]
  else ['%', hexDigitUpper (c.toNat / 16 % 16), hexDigitUpper (c.toNat % 16)]

/-- Go `url.QueryEscape`. -/
def queryEscape (s : String) : String :=
  ⟨(s.data.map queryEscapeChar).flatten⟩

/-- Lexicographic comparison of character lists by code point — the order
Go `slices.Sort` uses on the encoded keys (byte order and code-point order
agree on ASCII). -/
def charListLt : List Char → List Char → Bool
  | [], [] => false
  | [], _ :: _ => true
  | _ :: _, [] => false
  | a :: as, b :: bs =>
    if a.toNat < b.toNat then true
    else if b.toNat < a.toNat then false
    else charListLt as bs

/-- Insertion of one keyed entry into a key-sorted list (Go
`slices.Sort(keys)` before encoding). -/
def insertByKey (p : String × List String) : Values → Values
  | [] => [p]
  | q :: rest =>
    if charListLt p.1.data q.1.data then p :: q :: rest else q :: insertByKey p rest

/-- Sorts the entries of a `Values` by key. -/
def sortByKey (vs : Values) : Values := vs.foldr insertByKey []

/-- Joins encoded `key=value` pieces with `&`. -/
def joinAmp : List String → String
  | [] => ""
  | [x] => x
  | x :: rest => x ++ "&" ++ joinAmp rest

/-- Go `Values.Encode`: keys sorted, each value escaped, pairs joined by
`&`. -/
def valuesEncode (vs : Values) : String :=
  joinAmp ((sortByKey vs).foldr
    (fun (p : String × List String) acc =>
      p.2.map (fun v => queryEscape p.1 ++ "=" ++ queryEscape v) ++ acc) [])

/-! ### URL printing (Go `url.URL.String`, modelled fields) -/

/-- Go `url.URL.String` restricted to the modelled fields. -/
def URL.toStr (u : URL) : String :=
  (if u.scheme ≠ "" then u.scheme ++ ":" else "") ++
  (if u.opq ≠ "" then u.opq
   else
     (if u.scheme ≠ "" ∨ u.host ≠ "" then
        (if u.host ≠ "" ∨ u.path ≠ "" then "//" else "") ++ u.host
      else "") ++
     (if u.path ≠ "" ∧ u.path.data.head? ≠ some '/' ∧ u.host ≠ "" then "/" else "") ++
     u.path) ++
  (if u.forceQuery ∨ u.rawQuery ≠ "" then "?" ++ u.rawQuery else "")

/-! ### HTTP headers (Go `net/http.Header` and `textproto` canonical keys) -/

/-- Token characters allowed in a header field name
(Go `httpguts.IsTokenRune` / `validHeaderFieldByte`). -/
def validHeaderFieldChar (c : Char) : Bool :=
  c.isAlphanum ∨
    c ∈ ['!', '#', '$', '%', '&', Char.ofNat 39, '*', '+', '-', '.',
         '^', '_', Char.ofNat 96, '|', '~']

/-- Case folding loop of Go `textproto.CanonicalMIMEHeaderKey`: uppercase
after start or a hyphen, lowercase elsewhere. -/
def canonChars : Bool → List Char → List Char
  | _, [] => []
  | upper, c :: rest =>
    (if upper then c.toUpper else c.toLower) :: canonChars (c = '-') rest

/-- Go `textproto.CanonicalMIMEHeaderKey`: returns the input unchanged when
it contains an invalid token character, the canonical form otherwise. -/
def canonicalKey (s : String) : String :=
  if s.data.all validHeaderFieldChar then ⟨canonChars true s.data⟩ else s

/-- Go `http.Header`: canonical key to ordered values, as an association
list. -/
abbrev Header := List (String × List String)

/-- Association-list lookup (Go map indexing). -/
def assocLookup (k : String) : List (String × α) → Option α
  | [] => none
  | p :: rest => if p.1 = k then some p.2 else assocLookup k rest

/-- Replaces (or appends) the entry for key `k`. -/
def assocSet (k : String) (v : List String) : Header → Header
  | [] => [(k, v)]
  | (k2, l) :: rest =>
    if k2 = k then (k2, v) :: rest else (k2, l) :: assocSet k v rest

/-- Go `Header.Set`: stores the single value under the canonical key. -/
def Header.set (h : Header) (k v : String) : Header :=
  assocSet (canonicalKey k) [v] h

/-- Go `Header.Get`: first value under the canonical key, `""` when the key
is absent. -/
def Header.get (h : Header) (k : String) : String :=
  match assocLookup (canonicalKey k) h with
  | some (v :: _) => v
  | _ => ""

/-- Whether the header holds an entry for the canonical form of `k`. -/
def Header.hasKey (h : Header) (k : String) : Bool :=
  (assocLookup (canonicalKey k) h).isSome

/-! ### Requests, responses and the error taxonomy -/

/-- Model of the outgoing `http.Request`: method, URL, headers and an
optional body (a fully-buffered byte string; stream mechanics elided). -/
structure Request where
  method : String
  url : URL
  header : Header
  body : Option String
  deriving Repr, DecidableEq

/-- Model of `http.Response`: status code, headers and buffered body. -/
structure Response where
  statusCode : Nat
  header : Header
  body : Option String
  deriving Repr, DecidableEq

/-- Modelled from the spec: the `pkg/errors` package
(`github.com/glwbr/brisa/pkg/errors`) is not included under `src/`; only its
call sites are.  Following §4.4 of the spec, failures form a closed
taxonomy: `config` covers `errors.New` for resolution failures
(ConfigurationError), `wrap` covers `errors.Wrap`/`errors.Wrapf`,
`network` covers `errors.NewHTTPError(nil, err, msg)` for transport-level
failures (NetworkError), and `httpStatus` covers
`errors.NewHTTPError(resp, nil, msg)`, carrying the response for inspection
(HTTPStatusError). -/
inductive ClientError where
  | config (msg : String)
  | wrap (msg : String) (cause : ClientError)
  | network (cause : String) (msg : String)
  | httpStatus (resp : Response) (msg : String)
  deriving Repr, DecidableEq

/-- Modelled from the spec: classification of an error as a
ConfigurationError (§4.4) — a direct configuration/resolution failure or a
wrapping of one. -/
def ClientError.isConfigurationError : ClientError → Bool
  | .config _ => true
  | .wrap _ cause => cause.isConfigurationError
  | _ => false

/-! ### Logger (`pkg/logger`): only identity matters to the client model;
log emission by the debug transport is observed through `LogRecord`s. -/

/-- A logger value: the discarding `logger.NoOp{}` or a user-supplied
implementation (abstract handle). -/
inductive LoggerV where
  | noOp
  | custom (id : Nat)
  deriving Repr, DecidableEq

/-! ### Client configuration (`config.go`: `ClientConfig`, options,
`buildConfig`) -/

/-- Go `defaultTimeout = 10 * time.Second`, in nanoseconds
(`time.Duration`). -/
def defaultTimeout : Int := 10 * 1000000000

/-- Go `defaultUserAgent`. -/
def defaultUserAgent : String :=
  "Mozilla/5.0 (Windows NT 10.0; Win64; x64) AppleWebKit/537.36"

/-- Go `ClientConfig`.  `jar` and `customDoer` are abstract handles for the
cookie jar and the user-supplied `Doer` (`none` models Go `nil`). -/
structure ClientConfig where
  baseURL : Option URL
  timeout : Int
  retryAttempts : Int
  headers : List (String × String)
  jar : Option Nat
  logger : LoggerV
  debug : Bool
  customDoer : Option Nat
  deriving Repr, DecidableEq

/-- Deep embedding of the `ClientOption` functional options: one constructor
per `With*` constructor in `config.go`.  `Option` arguments model nilable Go
arguments. -/
inductive ClientOption where
  | withTimeout (d : Int)
  | withBaseURL (baseURL : String)
  | withRetryAttempts (attempts : Int)
  | withHeaders (headers : List (String × String))
  | withCookieJar (jar : Option Nat)
  | withLogger (l : Option LoggerV)
  | withDebug (enable : Bool)
  | withCustomDoer (d : Option Nat)
  deriving Repr, DecidableEq

/-- Go `normalizeBaseURL`: parse, require an absolute URL, trim trailing
path slashes. -/
def normalizeBaseURL (baseURL : String) : Except String URL :=
  match parseURL baseURL with
  | .error e => .error ("invalid base URL: " ++ e)
  | .ok u =>
    if ¬ u.isAbs then .error "base URL must be absolute (have scheme and host)"
    else .ok { u with path := trimTrailingSlashes u.path }

/-- Replaces (or appends) the entry for `k` in a string map. -/
def mapSet (k v : String) : List (String × String) → List (String × String)
  | [] => [(k, v)]
  | (k2, v2) :: rest =>
    if k2 = k then (k2, v) :: rest else (k2, v2) :: mapSet k v rest

/-- Go `maps.Copy(dst, src)` on the plain (non-canonicalized) header map:
each source entry overwrites the destination entry of the same key.  The
source is traversed in list order; since Go map keys are unique, any
traversal order yields the same map. -/
def copyInto (dst : List (String × String)) (src : List (String × String)) :
    List (String × String) :=
  src.foldl (fun m p => mapSet p.1 p.2 m) dst

/-- Application of one option to the configuration draft, transcribing each
`With*` closure body (the `Logger.Error` call inside `WithBaseURL` is a log
side effect and leaves the draft unchanged). -/
def applyOption (cfg : ClientConfig) : ClientOption → ClientConfig
  | .withTimeout d => if d > 0 then { cfg with timeout := d } else cfg
  | .withBaseURL baseURL =>
    if baseURL = "" then cfg
    else match normalizeBaseURL baseURL with
      | .error _ => cfg
      | .ok u => { cfg with baseURL := some u }
  | .withRetryAttempts attempts =>
    if attempts ≥ 0 then { cfg with retryAttempts := attempts } else cfg
  | .withHeaders headers =>
    if headers.length = 0 then cfg
    else { cfg with headers := copyInto cfg.headers headers }
  | .withCookieJar jar =>
    match jar with
    | some j => { cfg with jar := some j }
    | none => cfg
  | .withLogger l =>
    match l with
    | some lv => { cfg with logger := lv }
    | none => cfg
  | .withDebug enable => { cfg with debug := enable }
  | .withCustomDoer d =>
    match d with
    | some dv => { cfg with customDoer := some dv }
    | none => cfg

/-- The configuration draft `buildConfig` starts from (defaults plus Go zero
values for the remaining fields). -/
def defaultConfig : ClientConfig :=
  { baseURL := none
    timeout := defaultTimeout
    retryAttempts := 3
    headers := [("User-Agent", defaultUserAgent)]
    jar := none
    logger := .noOp
    debug := false
    customDoer := none }

/-- Go `buildConfig`: defaults first, options applied in order. -/
def buildConfig (opts : List ClientOption) : ClientConfig :=
  opts.foldl applyOption defaultConfig

/-! ### Transport chain (`transport.go`) -/

/-- Log records the logging transport hands to its logger.  Request records
carry method, rendered URL and a non-empty body; response records carry the
status code and a non-empty body (the rendered header dump and the timing
field are elided as noted in the header comment). -/
inductive LogRecord where
  | request (method : String) (url : String) (body : Option String)
  | response (statusCode : Nat) (body : Option String)
  deriving Repr, DecidableEq

/-- A transport chain link.  `terminal` is the raw network transport
(`http.DefaultTransport`); `headersNode` is `headersTransport` /
`HeadersTransport`, `loggingNode` is `loggingTransport` /
`LoggingTransport`.  These are the only `RoundTripper`s the package
defines: no retry link exists, and nothing but `buildConfig` ever reads
`RetryAttempts`. -/
inductive Transport where
  | terminal
  | headersNode (headers : List (String × String)) (next : Transport)
  | loggingNode (logger : LoggerV) (debug : Bool) (next : Transport)
  deriving Repr, DecidableEq

/-- Deep embedding of `TransportOption` (`transport.go`): one constructor
per factory. -/
inductive TransportOption where
  | headersOpt (headers : List (String × String))
  | loggingOpt (logger : LoggerV) (debug : Bool)
  deriving Repr, DecidableEq

/-- Application of one `TransportOption` to the next link
(`WithHeadersTransport` / `WithLogging`). -/
def applyTransportOption (opt : TransportOption) (next : Transport) : Transport :=
  match opt with
  | .headersOpt headers => .headersNode headers next
  | .loggingOpt logger debug => .loggingNode logger debug next

/-- Go `NewTransport`: starts from `http.DefaultTransport` and applies the
options in reverse so that the first option is the outermost wrapper. -/
def NewTransport (opts : List TransportOption) : Transport :=
  opts.foldr applyTransportOption .terminal

/-- Go `buildTransport` (`transport.go` of the package under `unnamed/`):
wraps the default transport with logging, then headers, so the headers link
is outermost. -/
def buildTransport (cfg : ClientConfig) : Transport :=
  .headersNode cfg.headers (.loggingNode cfg.logger cfg.debug .terminal)

/-- Header-injection loop of `headersTransport.RoundTrip` /
`HeadersTransport.RoundTrip`: each configured default is set only when the
request does not already carry a value for that name.  Go iterates the map
in arbitrary order; the list order is fixed here and theorems that depend on
it assume canonically distinct keys. -/
def applyDefaultHeaders (headers : List (String × String)) (req : Request) :
    Request :=
  headers.foldl
    (fun r p =>
      if r.header.get p.1 = "" then { r with header := r.header.set p.1 p.2 }
      else r)
    req

/-- Body field of a request log record (`len(body) > 0` in `logRequest`). -/
def logBodyField (body : Option String) : Option String :=
  match body with
  | some s => if s = "" then none else some s
  | none => none

deriving instance DecidableEq for Except

/-- Observable outcome of running a transport chain: the result handed back
to the caller, the requests that reached the raw transport, the requests the
logging link saw, and the log records it emitted (in emission order). -/
structure RunOut where
  result : Except String Response
  terminalSeen : List Request
  loggingSeen : List Request
  logs : List LogRecord
  deriving Repr, DecidableEq

/-- Executable interpretation of a transport chain against a raw transport
`terminalDo`.  The logging link transcribes `loggingTransport.RoundTrip`:
with debug off it only delegates; with debug on it delegates, then emits the
request record (even on failure) and, only when a response came back without
a transport error, the response record.  Bodies are restored after
buffering, so the request and response pass through unchanged. -/
def runTransport (terminalDo : Request → Except String Response) :
    Transport → Request → RunOut
  | .terminal, req =>
    { result := terminalDo req, terminalSeen := [req], loggingSeen := [], logs := [] }
  | .headersNode headers next, req =>
    runTransport terminalDo next (applyDefaultHeaders headers req)
  | .loggingNode _ debug next, req =>
    let out := runTransport terminalDo next req
    if debug then
      { out with
        loggingSeen := req :: out.loggingSeen
        logs := out.logs ++
          [.request req.method req.url.toStr (logBodyField req.body)] ++
          (match out.result with
           | .ok resp => [.response resp.statusCode (logBodyField resp.body)]
           | .error _ => []) }
    else { out with loggingSeen := req :: out.loggingSeen }

/-! ### The client (`client.go`, `request.go`) -/

/-- The executor a client ends up with: the user-supplied custom `Doer`, or
the default `http.Client` built by `createDefaultDoer` (timeout, optional
jar, transport chain). -/
inductive DoerModel where
  | custom (id : Nat)
  | builtin (timeout : Int) (jar : Option Nat) (transport : Transport)
  deriving Repr, DecidableEq

/-- Go `Client`. -/
structure Client where
  doer : DoerModel
  baseURL : Option URL
  logger : LoggerV
  config : ClientConfig
  deriving Repr, DecidableEq

/-- Go `createDefaultDoer`: an `http.Client` with the configured timeout,
the chain from `buildTransport`, and the jar when one is set. -/
def createDefaultDoer (cfg : ClientConfig) : DoerModel :=
  .builtin cfg.timeout cfg.jar (buildTransport cfg)

/-- Go `New`: builds the configuration, picks the custom doer when present,
and always returns a `nil` error (second component). -/
def New (opts : List ClientOption) : Client × Option String :=
  let cfg := buildConfig opts
  let doer :=
    match cfg.customDoer with
    | some d => DoerModel.custom d
    | none => createDefaultDoer cfg
  (⟨doer, cfg.baseURL, cfg.logger, cfg⟩, none)

/-! ### Request execution (`request.go`: `RequestConfig`, `resolveURL`,
`addQueryParams`, `do`) -/

/-- Go `RequestConfig` (`Params` is a nilable `url.Values`, `Headers` a
plain map). -/
structure RequestConfig where
  params : Option Values
  body : Option String
  headers : List (String × String)
  deriving Repr, DecidableEq

/-- Go `addQueryParams`: `nil` params leave the URL untouched; otherwise the
existing query is parsed, every parameter value is added, and the query is
re-encoded. -/
def addQueryParams (u : URL) (params : Option Values) : URL :=
  match params with
  | none => u
  | some ps =>
    let q := parseQuery u.rawQuery
    let q := ps.foldl (fun acc p => p.2.foldl (fun acc2 v => valuesAdd acc2 p.1 v) acc) q
    { u with rawQuery := valuesEncode q }

/-- Go `Client.resolveURL`: parse the target (a parse failure is wrapped
with "invalid URL or path"), use an absolute URL as-is, otherwise resolve
against the base URL, which must be configured. -/
def resolveURL (baseURL : Option URL) (pathOrURL : String)
    (queryParams : Option Values) : Except ClientError URL :=
  match parseURL pathOrURL with
  | .error e => .error (.wrap ("invalid URL or path: " ++ pathOrURL) (.config e))
  | .ok u =>
    if u.isAbs then .ok (addQueryParams u queryParams)
    else match baseURL with
      | none => .error (.config "cannot resolve relative path without a base URL")
      | some b => .ok (addQueryParams (resolveReference b u) queryParams)

/-- Per-request header application in `do`
(`for k, v := range opts.Headers { req.Header.Set(k, v) }`).  Iteration
order is fixed to list order; theorems depending on it assume canonically
distinct keys. -/
def applyRequestHeaders (headers : List (String × String)) (req : Request) :
    Request :=
  headers.foldl (fun r p => { r with header := r.header.set p.1 p.2 }) req

/-- Outcome of `Client.do`: the response and error returned to the caller,
plus the execution observations. -/
structure DoOut where
  resp : Option Response
  error : Option ClientError
  terminalSeen : List Request
  loggingSeen : List Request
  logs : List LogRecord
  deriving Repr, DecidableEq

/-- Go `Client.do` for a client whose doer is the built-in chain, with the
raw transport supplied as `terminalDo`: resolve the URL (a failure is
wrapped and returned with no request issued), build the request, set the
per-request headers, run the chain, then classify — a transport error
becomes `NewHTTPError(nil, err, "request failed")`, a status ≥ 400 returns
the response together with
`NewHTTPError(resp, nil, "request returned error status")`, anything else
is returned unmodified with no error. -/
def clientDo (baseURL : Option URL) (transport : Transport)
    (terminalDo : Request → Except String Response)
    (method urlOrPath : String) (opts : Option RequestConfig) : DoOut :=
  let o := opts.getD { params := none, body := none, headers := [] }
  match resolveURL baseURL urlOrPath o.params with
  | .error e =>
    { resp := none, error := some (.wrap "failed to resolve URL" e)
      terminalSeen := [], loggingSeen := [], logs := [] }
  | .ok u =>
    let req : Request :=
      applyRequestHeaders o.headers
        { method := method, url := u, header := [], body := o.body }
    let out := runTransport terminalDo transport req
    match out.result with
    | .error e =>
      { resp := none, error := some (.network e "request failed")
        terminalSeen := out.terminalSeen, loggingSeen := out.loggingSeen
        logs := out.logs }
    | .ok resp =>
      if resp.statusCode ≥ 400 then
        { resp := some resp
          error := some (.httpStatus resp "request returned error status")
          terminalSeen := out.terminalSeen, loggingSeen := out.loggingSeen
          logs := out.logs }
      else
        { resp := some resp, error := none
          terminalSeen := out.terminalSeen, loggingSeen := out.loggingSeen
          logs := out.logs }

/-! ### Association-list lemmas -/

theorem assocLookup_assocSet (k : String) (v : List String) (h : Header)
    (k2 : String) :
    assocLookup k2 (assocSet k v h) =
      if k = k2 then some v else assocLookup k2 h := by
  induction h with
  | nil =>
    by_cases hk : k = k2 <;> simp [assocSet, assocLookup, hk]
  | cons p rest ih =>
    by_cases hp : p.1 = k
    · subst hp
      by_cases hk : p.1 = k2 <;> simp [assocSet, assocLookup, hk]
    · by_cases hp2 : p.1 = k2
      · have hk : ¬ k = k2 := fun hh => hp (hp2.trans hh.symm)
        have hke : ¬ k2 = k := fun hh => hk hh.symm
        simp [assocSet, assocLookup, hp, hp2, hk, hke]
      · simp [assocSet, assocLookup, hp, hp2, ih]

theorem assocLookup_mapSet (k v : String) (m : List (String × String))
    (k2 : String) :
    assocLookup k2 (mapSet k v m) =
      if k = k2 then some v else assocLookup k2 m := by
  induction m with
  | nil =>
    by_cases hk : k = k2 <;> simp [mapSet, assocLookup, hk]
  | cons p rest ih =>
    by_cases hp : p.1 = k
    · subst hp
      by_cases hk : p.1 = k2 <;> simp [mapSet, assocLookup, hk]
    · by_cases hp2 : p.1 = k2
      · have hk : ¬ k = k2 := fun hh => hp (hp2.trans hh.symm)
        have hke : ¬ k2 = k := fun hh => hk hh.symm
        simp [mapSet, assocLookup, hp, hp2, hk, hke]
      · simp [mapSet, assocLookup, hp, hp2, ih]

theorem mapSet_id (k v : String) (m : List (String × String))
    (h : assocLookup k m = some v) : mapSet k v m = m := by
  induction m with
  | nil => simp [assocLookup] at h
  | cons p rest ih =>
    obtain ⟨pk, pv⟩ := p
    by_cases hp : pk = k
    · simp [assocLookup, hp] at h
      simp [mapSet, hp, h]
    · simp [assocLookup, hp] at h
      simp [mapSet, hp, ih h]

theorem copyInto_nil (m : List (String × String)) : copyInto m [] = m := rfl

theorem copyInto_cons (m : List (String × String)) (p : String × String)
    (rest : List (String × String)) :
    copyInto m (p :: rest) = copyInto (mapSet p.1 p.2 m) rest := rfl

theorem copyInto_lookup_notMem (src m : List (String × String)) (k : String)
    (hk : k ∉ src.map Prod.fst) :
    assocLookup k (copyInto m src) = assocLookup k m := by
  induction src generalizing m with
  | nil => rfl
  | cons p rest ih =>
    simp only [List.map_cons, List.mem_cons, not_or] at hk
    rw [copyInto_cons, ih _ hk.2, assocLookup_mapSet,
      if_neg (fun hh => hk.1 hh.symm)]

theorem copyInto_lookup_mem (src : List (String × String))
    (m : List (String × String)) (k v : String) (hmem : (k, v) ∈ src)
    (hnd : (src.map Prod.fst).Nodup) :
    assocLookup k (copyInto m src) = some v := by
  induction src generalizing m with
  | nil => simp at hmem
  | cons p rest ih =>
    rcases List.mem_cons.mp hmem with hhead | htail
    · subst hhead
      rw [copyInto_cons]
      rw [copyInto_lookup_notMem rest _ k (by simpa using (List.nodup_cons.mp hnd).1)]
      simp [assocLookup_mapSet]
    · exact ih _ htail (List.nodup_cons.mp hnd).2

theorem copyInto_id (src m : List (String × String))
    (h : ∀ p ∈ src, assocLookup p.1 m = some p.2) : copyInto m src = m := by
  induction src with
  | nil => rfl
  | cons p rest ih =>
    rw [copyInto_cons, mapSet_id _ _ _ (h p (List.mem_cons_self p rest))]
    exact ih (fun q hq => h q (List.mem_cons_of_mem p hq))

/-! ### Header lemmas -/

theorem Header.get_set_eq (h : Header) (k v : String) : (h.set k v).get k = v := by
  simp [Header.set, Header.get, assocLookup_assocSet]

theorem Header.get_set_ne (h : Header) (k k2 v : String)
    (hne : canonicalKey k ≠ canonicalKey k2) :
    (h.set k v).get k2 = h.get k2 := by
  simp [Header.set, Header.get, assocLookup_assocSet, hne]

theorem Header.hasKey_set_self (h : Header) (k v : String) :
    (h.set k v).hasKey k = true := by
  simp [Header.set, Header.hasKey, assocLookup_assocSet]

theorem Header.hasKey_set_preserve (h : Header) (k k2 v : String)
    (hk : h.hasKey k2 = true) : (h.set k v).hasKey k2 = true := by
  by_cases hc : canonicalKey k = canonicalKey k2 <;>
    simp_all [Header.set, Header.hasKey, assocLookup_assocSet]

theorem Header.get_ne_hasKey (h : Header) (k : String)
    (hg : h.get k ≠ "") : h.hasKey k = true := by
  unfold Header.get at hg
  unfold Header.hasKey
  match hl : assocLookup (canonicalKey k) h with
  | none => rw [hl] at hg; simp at hg
  | some [] => rw [hl] at hg; simp at hg
  | some (v :: rest) => simp

/-! ### Lemmas about the header-injection and per-request header loops -/

theorem applyDefaultHeaders_nil (req : Request) :
    applyDefaultHeaders [] req = req := rfl

theorem applyDefaultHeaders_cons (p : String × String)
    (rest : List (String × String)) (req : Request) :
    applyDefaultHeaders (p :: rest) req =
      applyDefaultHeaders rest
        (if req.header.get p.1 = "" then
          { req with header := req.header.set p.1 p.2 }
         else req) := rfl

theorem applyDefaultHeaders_hasKey_preserve
    (hs : List (String × String)) (req : Request) (k : String)
    (hk : req.header.hasKey k = true) :
    (applyDefaultHeaders hs req).header.hasKey k = true := by
  induction hs generalizing req with
  | nil => exact hk
  | cons p rest ih =>
    rw [applyDefaultHeaders_cons]
    by_cases hcond : req.header.get p.1 = ""
    · simp only [hcond, if_pos]
      exact ih _ (Header.hasKey_set_preserve _ _ _ _ hk)
    · simp only [hcond, if_neg, if_false]
      exact ih _ hk

theorem applyDefaultHeaders_hasKey_mem
    (hs : List (String × String)) (req : Request) (k v : String)
    (hmem : (k, v) ∈ hs) :
    (applyDefaultHeaders hs req).header.hasKey k = true := by
  induction hs generalizing req with
  | nil => simp at hmem
  | cons p rest ih =>
    rcases List.mem_cons.mp hmem with hhead | htail
    · subst hhead
      rw [applyDefaultHeaders_cons]
      by_cases hcond : req.header.get k = ""
      · simp only [hcond, if_pos]
        exact applyDefaultHeaders_hasKey_preserve _ _ _
          (Header.hasKey_set_self _ _ _)
      · simp only [hcond, if_neg, if_false]
        exact applyDefaultHeaders_hasKey_preserve _ _ _
          (Header.get_ne_hasKey _ _ hcond)
    · rw [applyDefaultHeaders_cons]
      exact ih _ htail

theorem applyDefaultHeaders_get_preserve
    (hs : List (String × String)) (req : Request) (k : String)
    (hg : req.header.get k ≠ "") :
    (applyDefaultHeaders hs req).header.get k = req.header.get k := by
  induction hs generalizing req with
  | nil => rfl
  | cons p rest ih =>
    rw [applyDefaultHeaders_cons]
    by_cases hc : canonicalKey p.1 = canonicalKey k
    · have hpk : req.header.get p.1 = req.header.get k := by
        unfold Header.get; rw [hc]
      have hcond : ¬ req.header.get p.1 = "" := by rw [hpk]; exact hg
      simp only [hcond, if_neg, if_false]
      exact ih _ hg
    · by_cases hcond : req.header.get p.1 = ""
      · simp only [hcond, if_pos]
        rw [ih _ (by rw [Header.get_set_ne _ _ _ _ hc]; exact hg)]
        exact Header.get_set_ne _ _ _ _ hc
      · simp only [hcond, if_neg, if_false]
        exact ih _ hg

theorem applyRequestHeaders_nil (req : Request) :
    applyRequestHeaders [] req = req := rfl

theorem applyRequestHeaders_cons (p : String × String)
    (rest : List (String × String)) (req : Request) :
    applyRequestHeaders (p :: rest) req =
      applyRequestHeaders rest { req with header := req.header.set p.1 p.2 } := rfl

theorem applyRequestHeaders_get_notMem
    (hs : List (String × String)) (req : Request) (k : String)
    (hnm : canonicalKey k ∉ hs.map (fun p => canonicalKey p.1)) :
    (applyRequestHeaders hs req).header.get k = req.header.get k := by
  induction hs generalizing req with
  | nil => rfl
  | cons p rest ih =>
    simp only [List.map_cons, List.mem_cons, not_or] at hnm
    rw [applyRequestHeaders_cons, ih _ hnm.2]
    exact Header.get_set_ne _ _ _ _ (fun hh => hnm.1 hh.symm)

theorem applyRequestHeaders_get_mem
    (hs : List (String × String)) (req : Request) (k v : String)
    (hmem : (k, v) ∈ hs)
    (hnd : (hs.map (fun p => canonicalKey p.1)).Nodup) :
    (applyRequestHeaders hs req).header.get k = v := by
  induction hs generalizing req with
  | nil => simp at hmem
  | cons p rest ih =>
    rcases List.mem_cons.mp hmem with hhead | htail
    · subst hhead
      rw [applyRequestHeaders_cons]
      rw [applyRequestHeaders_get_notMem rest _ k (List.nodup_cons.mp hnd).1]
      exact Header.get_set_eq _ _ _
    · rw [applyRequestHeaders_cons]
      exact ih _ htail (List.nodup_cons.mp hnd).2

/-! ### Chain execution lemmas -/

theorem runTransport_buildTransport (cfg : ClientConfig)
    (terminalDo : Request → Except String Response) (req : Request) :
    runTransport terminalDo (buildTransport cfg) req =
      { result := terminalDo (applyDefaultHeaders cfg.headers req)
        terminalSeen := [applyDefaultHeaders cfg.headers req]
        loggingSeen := [applyDefaultHeaders cfg.headers req]
        logs :=
          if cfg.debug then
            LogRecord.request (applyDefaultHeaders cfg.headers req).method
                (applyDefaultHeaders cfg.headers req).url.toStr
                (logBodyField (applyDefaultHeaders cfg.headers req).body) ::
              (match terminalDo (applyDefaultHeaders cfg.headers req) with
               | .ok resp =>
                 [.response resp.statusCode (logBodyField resp.body)]
               | .error _ => [])
          else [] } := by
  cases hdbg : cfg.debug <;>
    cases hres : terminalDo (applyDefaultHeaders cfg.headers req) <;>
    simp [buildTransport, runTransport, hdbg, hres]

/-! ### Claim theorems -/

/-- C2: for every client built without a custom executor, the chain built at
build time has the header-injection link outermost and the logging link
inside it (`buildTransport`, and equally `NewTransport` with the option
order used by `createDefaultDoer` of the `NewTransport` variant), so for
every request the logging link sees exactly the request with the default
headers already injected, and every injected header name is present on it. -/
theorem C2_chain_order (opts : List ClientOption)
    (hnc : (buildConfig opts).customDoer = none) :
    (New opts).1.doer =
      .builtin (buildConfig opts).timeout (buildConfig opts).jar
        (.headersNode (buildConfig opts).headers
          (.loggingNode (buildConfig opts).logger (buildConfig opts).debug
            .terminal)) ∧
    (∀ hs lg dbg, NewTransport [.headersOpt hs, .loggingOpt lg dbg] =
      .headersNode hs (.loggingNode lg dbg .terminal)) ∧
    (∀ terminalDo req,
      (runTransport terminalDo (buildTransport (buildConfig opts)) req).loggingSeen =
        [applyDefaultHeaders (buildConfig opts).headers req]) ∧
    (∀ terminalDo req k v, (k, v) ∈ (buildConfig opts).headers →
      ∀ r ∈ (runTransport terminalDo
          (buildTransport (buildConfig opts)) req).loggingSeen,
        r.header.hasKey k = true) := by
  refine ⟨?_, fun hs lg dbg => rfl, fun terminalDo req => ?_, ?_⟩
  · simp [New, createDefaultDoer, buildTransport, hnc]
  · rw [runTransport_buildTransport]
  · intro terminalDo req k v hmem r hr
    rw [runTransport_buildTransport] at hr
    simp only [List.mem_singleton] at hr
    subst hr
    exact applyDefaultHeaders_hasKey_mem _ _ _ _ hmem

/-- C2 witness: the default client (no options, hence no custom executor)
has the headers link outermost and the logging link inside it. -/
theorem C2_chain_order_witness :
    (New []).1.doer =
      .builtin defaultTimeout none
        (.headersNode [("User-Agent", defaultUserAgent)]
          (.loggingNode .noOp false .terminal)) :=
  (C2_chain_order [] rfl).1

/-- C3: evaluation of the URL-resolution scenario from the claim: with base
URL `https://example.com/api`, target `/users` and query
`{page:1, limit:10}`, the code resolves to
`https://example.com/users?limit=10&page=1` — the base path `/api` is
dropped (RFC 3986 absolute-path reference), not to
`https://example.com/api/users?limit=10&page=1` as the claim (and the
repository's own `TestClient_ResolveURL`) expect. -/
theorem C3_resolve_scenario_eval :
    parseURL "https://example.com/api" =
      .ok ⟨"https", "", "example.com", "/api", "", false⟩ ∧
    (resolveURL (some ⟨"https", "", "example.com", "/api", "", false⟩)
        "/users" (some [("page", ["1"]), ("limit", ["10"])])).map URL.toStr =
      .ok "https://example.com/users?limit=10&page=1" ∧
    "https://example.com/users?limit=10&page=1" ≠
      "https://example.com/api/users?limit=10&page=1" := by
  refine ⟨by rfl, by rfl, by decide⟩

/-- C4: with no configured base URL, executing any request whose target
parses as a relative URL (no scheme) returns the wrapped
"cannot resolve relative path without a base URL" ConfigurationError, and
no request reaches the transport chain or the raw transport. -/
theorem C4_relative_path_without_base (target : String) (u : URL)
    (transport : Transport) (terminalDo : Request → Except String Response)
    (method : String) (opts : Option RequestConfig)
    (hparse : parseURL target = .ok u) (hrel : u.isAbs = false) :
    clientDo none transport terminalDo method target opts =
      { resp := none
        error := some (.wrap "failed to resolve URL"
          (.config "cannot resolve relative path without a base URL"))
        terminalSeen := [], loggingSeen := [], logs := [] } ∧
    ClientError.isConfigurationError
      (.wrap "failed to resolve URL"
        (.config "cannot resolve relative path without a base URL")) = true := by
  refine ⟨?_, rfl⟩
  unfold clientDo resolveURL
  rw [hparse]
  simp [hrel]

/-- C4 witness: a GET for `/users` on a base-URL-less client with a default
chain and a transport that would answer 200 — the configuration error is
returned and the transport is never consulted. -/
theorem C4_relative_path_without_base_witness :
    clientDo none (buildTransport defaultConfig)
        (fun _ => .ok ⟨200, [], none⟩) "GET" "/users" none =
      { resp := none
        error := some (.wrap "failed to resolve URL"
          (.config "cannot resolve relative path without a base URL"))
        terminalSeen := [], loggingSeen := [], logs := [] } :=
  (C4_relative_path_without_base "/users" ⟨"", "", "", "/users", "", false⟩
    (buildTransport defaultConfig) (fun _ => .ok ⟨200, [], none⟩) "GET" none
    (by decide) (by decide)).1

/-- C5: when the chain produces a response, `do` returns it to the caller
in all cases; with status ≥ 400 it additionally returns the
HTTPStatusError carrying that very response (hence its status code), and
with status < 400 it returns no error. -/
theorem C5_status_classification (baseURL : Option URL) (transport : Transport)
    (terminalDo : Request → Except String Response) (method urlOrPath : String)
    (opts : Option RequestConfig) (u : URL) (resp : Response)
    (hres : resolveURL baseURL urlOrPath
      (opts.getD { params := none, body := none, headers := [] }).params = .ok u)
    (hrun : (runTransport terminalDo transport
      (applyRequestHeaders
        (opts.getD { params := none, body := none, headers := [] }).headers
        { method := method, url := u, header := []
          body := (opts.getD { params := none, body := none, headers := [] }).body })).result
      = .ok resp) :
    (clientDo baseURL transport terminalDo method urlOrPath opts).resp = some resp ∧
    (resp.statusCode ≥ 400 →
      (clientDo baseURL transport terminalDo method urlOrPath opts).error =
        some (.httpStatus resp "request returned error status")) ∧
    (resp.statusCode < 400 →
      (clientDo baseURL transport terminalDo method urlOrPath opts).error = none) := by
  simp only [clientDo]
  rw [hres]
  simp only [hrun]
  by_cases h4 : resp.statusCode ≥ 400
  · simp [h4]
  · simp [h4]

/-- C5 witness: a 404 response comes back to the caller together with an
HTTPStatusError carrying that response. -/
theorem C5_status_classification_witness :
    (clientDo none (buildTransport defaultConfig)
        (fun _ => .ok ⟨404, [], none⟩) "GET" "https://example.com/" none).resp =
      some ⟨404, [], none⟩ ∧
    (clientDo none (buildTransport defaultConfig)
        (fun _ => .ok ⟨404, [], none⟩) "GET" "https://example.com/" none).error =
      some (.httpStatus ⟨404, [], none⟩ "request returned error status") := by
  have h := C5_status_classification none (buildTransport defaultConfig)
    (fun _ => .ok ⟨404, [], none⟩) "GET" "https://example.com/" none
    ⟨"https", "", "example.com", "/", "", false⟩ ⟨404, [], none⟩
    (by rfl) (by rfl)
  exact ⟨h.1, h.2.1 (by decide)⟩

/-- C6 counterexample: with client default header `X-Token: default` and
per-request override `x-token` supplied with the empty value, the terminal
transport sees `default` — the client-default value, not the per-request
one, because `Header.Get` cannot distinguish an empty value from an absent
header. -/
theorem C6_counterexample :
    ((clientDo none
        (buildTransport { defaultConfig with headers := [("X-Token", "default")] })
        (fun _ => .ok ⟨200, [], none⟩) "GET" "https://example.com/"
        (some { params := none, body := none,
                headers := [("x-token", "")] })).terminalSeen.map
      (fun r => r.header.get "x-token")) = ["default"] ∧
    ("default" : String) ≠ "" := by
  exact ⟨by rfl, by decide⟩

/-- C6 (amended): for every header name present in the per-request
overrides with a non-empty value (and canonically distinct override names),
the value the terminal transport sees for that name is the per-request
value, not the client-default one, regardless of letter casing. -/
theorem C6_request_header_override (cfg : ClientConfig)
    (terminalDo : Request → Except String Response)
    (method : String) (u : URL) (body : Option String)
    (rhs : List (String × String)) (k v : String)
    (hmem : (k, v) ∈ rhs) (hv : v ≠ "")
    (hnd : (rhs.map (fun p => canonicalKey p.1)).Nodup) :
    ∀ r ∈ (runTransport terminalDo (buildTransport cfg)
        (applyRequestHeaders rhs
          { method := method, url := u, header := [], body := body })).terminalSeen,
      r.header.get k = v := by
  intro r hr
  rw [runTransport_buildTransport] at hr
  simp only [List.mem_singleton] at hr
  subst hr
  have hreq : (applyRequestHeaders rhs
      { method := method, url := u, header := [], body := body }).header.get k = v :=
    applyRequestHeaders_get_mem _ _ _ _ hmem hnd
  rw [applyDefaultHeaders_get_preserve _ _ _ (by rw [hreq]; exact hv)]
  exact hreq

/-- C6 witness: the per-request `x-token: abc` overrides the default
`X-Token: default` on the request the terminal transport receives. -/
theorem C6_request_header_override_witness :
    (applyDefaultHeaders [("X-Token", "default")]
      (applyRequestHeaders [("x-token", "abc")]
        { method := "GET", url := ⟨"https", "", "example.com", "/", "", false⟩,
          header := [], body := none })).header.get "x-token" = "abc" :=
  C6_request_header_override
    { defaultConfig with headers := [("X-Token", "default")] }
    (fun _ => .ok ⟨200, [], none⟩) "GET"
    ⟨"https", "", "example.com", "/", "", false⟩ none
    [("x-token", "abc")] "x-token" "abc"
    (by simp) (by decide) (by decide)
    (applyDefaultHeaders [("X-Token", "default")]
      (applyRequestHeaders [("x-token", "abc")]
        { method := "GET", url := ⟨"https", "", "example.com", "/", "", false⟩,
          header := [], body := none }))
    (by rw [runTransport_buildTransport]; exact List.mem_singleton.mpr rfl)

/-- C7: the headers option is idempotent — applying `WithHeaders` for the
same map twice in sequence leaves exactly the configuration produced by
applying it once (for maps with distinct keys, as Go maps have). -/
theorem C7_headers_option_idempotent (hs : List (String × String))
    (cfg : ClientConfig) (hnd : (hs.map Prod.fst).Nodup) :
    applyOption (applyOption cfg (.withHeaders hs)) (.withHeaders hs) =
      applyOption cfg (.withHeaders hs) := by
  have hcopy : copyInto (copyInto cfg.headers hs) hs = copyInto cfg.headers hs :=
    copyInto_id hs _ (fun p hp => copyInto_lookup_mem hs cfg.headers p.1 p.2 hp hnd)
  by_cases h0 : hs.length = 0
  · simp [applyOption, h0]
  · simp [applyOption, h0, hcopy]

/-- C7 witness: applying the same one-entry headers option twice equals
applying it once. -/
theorem C7_headers_option_idempotent_witness :
    applyOption (applyOption defaultConfig (.withHeaders [("Accept", "text/html")]))
        (.withHeaders [("Accept", "text/html")]) =
      applyOption defaultConfig (.withHeaders [("Accept", "text/html")]) :=
  C7_headers_option_idempotent [("Accept", "text/html")] defaultConfig (by decide)

/-- C8: with debug off the logging link emits nothing whatever the outcome;
with debug on it emits exactly one request record for the executed attempt
even when the transport fails, plus exactly one response record when a
response came back without a transport error. -/
theorem C8_debug_logging (cfg : ClientConfig)
    (terminalDo : Request → Except String Response) (req : Request) :
    (cfg.debug = false →
      (runTransport terminalDo (buildTransport cfg) req).logs = []) ∧
    (cfg.debug = true →
      (∀ e, terminalDo (applyDefaultHeaders cfg.headers req) = .error e →
        (runTransport terminalDo (buildTransport cfg) req).logs =
          [.request (applyDefaultHeaders cfg.headers req).method
            (applyDefaultHeaders cfg.headers req).url.toStr
            (logBodyField (applyDefaultHeaders cfg.headers req).body)]) ∧
      (∀ resp, terminalDo (applyDefaultHeaders cfg.headers req) = .ok resp →
        (runTransport terminalDo (buildTransport cfg) req).logs =
          [.request (applyDefaultHeaders cfg.headers req).method
            (applyDefaultHeaders cfg.headers req).url.toStr
            (logBodyField (applyDefaultHeaders cfg.headers req).body),
           .response resp.statusCode (logBodyField resp.body)])) := by
  refine ⟨fun hdbg => ?_, fun hdbg => ⟨fun e he => ?_, fun resp hresp => ?_⟩⟩ <;>
    rw [runTransport_buildTransport]
  · simp [hdbg]
  · simp [hdbg, he]
  · simp [hdbg, hresp]

/-- C8 witness: with debug off no record is emitted for a successful
exchange; with debug on the same exchange emits the request record and the
response record. -/
theorem C8_debug_logging_witness :
    (runTransport (fun _ => .ok ⟨200, [], some "ok"⟩)
      (buildTransport defaultConfig)
      { method := "GET", url := ⟨"https", "", "example.com", "/", "", false⟩,
        header := [], body := none }).logs = [] ∧
    (runTransport (fun _ => .ok ⟨200, [], some "ok"⟩)
      (buildTransport { defaultConfig with debug := true })
      { method := "GET", url := ⟨"https", "", "example.com", "/", "", false⟩,
        header := [], body := none }).logs =
      [.request "GET" "https://example.com/" none, .response 200 (some "ok")] := by
  constructor
  · exact (C8_debug_logging defaultConfig _ _).1 rfl
  · rw [((C8_debug_logging { defaultConfig with debug := true } _ _).2 rfl).2
      ⟨200, [], some "ok"⟩ rfl]
    rfl

/-- An option value the configuration builder rejects: a non-positive
timeout, an empty / malformed / non-absolute base URL, or a negative retry
count. -/
def isRejectedOption : ClientOption → Bool
  | .withTimeout d => d ≤ 0
  | .withBaseURL s => s = "" ∨ ¬ (normalizeBaseURL s).isOk
  | .withRetryAttempts n => n < 0
  | _ => false

/-- C9: building a client never returns an error whatever the option
sequence; every rejected option value leaves the draft untouched (its field
keeps whatever it held — the default, when nothing else set it), and the
defaults are timeout 10s, retry attempts 3, no base URL, no-op logger and
the default User-Agent header. -/
theorem C9_build_never_fails (opts : List ClientOption) (cfg : ClientConfig)
    (opt : ClientOption) (hrej : isRejectedOption opt = true) :
    (New opts).2 = none ∧
    applyOption cfg opt = cfg ∧
    buildConfig [] =
      { baseURL := none, timeout := 10 * 1000000000, retryAttempts := 3,
        headers := [("User-Agent", defaultUserAgent)], jar := none,
        logger := .noOp, debug := false, customDoer := none } := by
  refine ⟨rfl, ?_, rfl⟩
  cases opt with
  | withTimeout d =>
    simp only [isRejectedOption, decide_eq_true_eq] at hrej
    simp [applyOption, show ¬ d > 0 by omega]
  | withBaseURL s =>
    by_cases hcase : s = ""
    · simp [applyOption, hcase]
    · cases hn : normalizeBaseURL s with
      | ok u =>
        exfalso
        simp [isRejectedOption, hcase, hn, Except.isOk, Except.toBool] at hrej
      | error e => simp [applyOption, hcase, hn]
  | withRetryAttempts n =>
    simp only [isRejectedOption, decide_eq_true_eq] at hrej
    simp [applyOption, show ¬ n ≥ 0 by omega]
  | withHeaders hs => simp [isRejectedOption] at hrej
  | withCookieJar j => simp [isRejectedOption] at hrej
  | withLogger l => simp [isRejectedOption] at hrej
  | withDebug b => simp [isRejectedOption] at hrej
  | withCustomDoer d => simp [isRejectedOption] at hrej

/-- C9 witness: a build with a zero timeout, a relative base URL and a
negative retry count returns no error, and the zero timeout is discarded. -/
theorem C9_build_never_fails_witness :
    (New [.withTimeout 0, .withBaseURL "/relative", .withRetryAttempts (-1)]).2 =
      none ∧
    applyOption defaultConfig (.withTimeout 0) = defaultConfig := by
  have h := C9_build_never_fails
    [.withTimeout 0, .withBaseURL "/relative", .withRetryAttempts (-1)]
    defaultConfig (.withTimeout 0) (by decide)
  exact ⟨h.1, h.2.1⟩

/-- C1: evaluation at the claim's scenario against the chain the code
actually builds.  With retry attempts configured to 3, the configuration
records the value but the built client's transport chain is
headers → logging → raw transport: the package defines no retry
`RoundTripper` and nothing but `buildConfig` ever reads `RetryAttempts`,
so a transport that always fails is consulted exactly once — not
3 + 1 = 4 times — before the NetworkError is surfaced. -/
theorem C1_single_attempt_eval :
    (buildConfig [.withRetryAttempts 3]).retryAttempts = 3 ∧
    (New [.withRetryAttempts 3]).1.doer =
      .builtin defaultTimeout none
        (.headersNode [("User-Agent", defaultUserAgent)]
          (.loggingNode .noOp false .terminal)) ∧
    (clientDo none (buildTransport (buildConfig [.withRetryAttempts 3]))
        (fun _ => .error "connection refused") "GET" "https://example.com/x"
        none).terminalSeen.length = 1 ∧
    (clientDo none (buildTransport (buildConfig [.withRetryAttempts 3]))
        (fun _ => .error "connection refused") "GET" "https://example.com/x"
        none).error =
      some (.network "connection refused" "request failed") ∧
    (1 : Nat) ≠ 3 + 1 := by
  exact ⟨rfl, rfl, by rfl, by rfl, by decide⟩

/-- C10 counterexample: a configured base URL whose path holds dot segments
(`https://example.com/a/..`, accepted and kept verbatim by `WithBaseURL`)
is changed by resolving the empty target — dot-segment removal rewrites the
path to `/`, so the result is not the base URL itself. -/
theorem C10_counterexample :
    (buildConfig [.withBaseURL "https://example.com/a/.."]).baseURL =
      some ⟨"https", "", "example.com", "/a/..", "", false⟩ ∧
    resolveURL (some ⟨"https", "", "example.com", "/a/..", "", false⟩) "" none =
      .ok ⟨"https", "", "example.com", "/", "", false⟩ ∧
    (⟨"https", "", "example.com", "/", "", false⟩ : URL) ≠
      ⟨"https", "", "example.com", "/a/..", "", false⟩ := by
  exact ⟨by rfl, by rfl, by decide⟩

/-- C10 (amended): for every client whose configured base URL is not
opaque, carries no force-query flag, and whose path is invariant under
RFC 3986 dot-segment normalization (true of every ordinary base such as
`https://example.com/api`), resolving the empty-string target with no
query parameters yields exactly the base URL, with no error. -/
theorem C10_empty_target_resolves_to_base (b : URL)
    (hopq : b.opq = "") (hfq : b.forceQuery = false)
    (hpath : resolvePathChars b.path.data [] = b.path.data) :
    resolveURL (some b) "" none = .ok b := by
  have hp : parseURL "" = .ok ⟨"", "", "", "", "", false⟩ := rfl
  simp only [resolveURL, hp]
  simp only [URL.isAbs]
  simp [resolveReference, addQueryParams, hopq, hfq, hpath]
  obtain ⟨sc, oq, ho, pa, rq, fq⟩ := b
  obtain ⟨pd⟩ := pa
  simp_all

/-- C10 witness: with base URL `https://example.com/api` the empty target
resolves to the base URL itself. -/
theorem C10_empty_target_resolves_to_base_witness :
    resolveURL (some ⟨"https", "", "example.com", "/api", "", false⟩) "" none =
      .ok ⟨"https", "", "example.com", "/api", "", false⟩ :=
  C10_empty_target_resolves_to_base
    ⟨"https", "", "example.com", "/api", "", false⟩ rfl rfl (by rfl)

end Brisa
